import Mathlib

/-!
Verification of the provider-abstraction core of the `ai_telegram_bot`
repository: the provider registry/cache (`bot/services/ai_providers/__init__.py`)
and the Gemini streaming adapter (`bot/services/ai_providers/gemini.py`).

Python dictionaries keyed by strings are modelled as association lists,
adapter objects as a record carrying the adapter kind, the API key it was
constructed with and a construction counter (so that "the identical cached
instance" and "a new instance" are expressible), and the module-level
mutable cache as an explicit state value threaded through the operations.
-/

namespace AiBot

/-- Association-list lookup, modelling Python dict access `d[k]` / `k in d`
for string-keyed dicts. Returns the first binding. -/
def alistFind {β : Type} (k : String) : List (String × β) → Option β
  | [] => none
  | (k', v) :: rest => if k' = k then some v else alistFind k rest

/-! ## Provider registry / cache (`bot/services/ai_providers/__init__.py`) -/

/-- The three adapter classes `FalProvider`, `GeminiProvider`,
`OpenRouterProvider`. -/
inductive ProviderKind where
  | fal
  | gemini
  | openrouter
deriving DecidableEq, Repr

/-- The errors raised by `get_provider` (both are `ValueError` in Python,
distinguished by their message: "not found in PROVIDER_MODELS" versus
"No implementation found"). -/
inductive GetError where
  | unknownModel
  | unimplementedProvider
deriving DecidableEq, Repr

/-- A constructed adapter object: its class, the API key passed to its
constructor, and an allocation counter standing in for object identity. -/
structure ProviderInstance where
  kind : ProviderKind
  apiKey : String
  instId : Nat
deriving DecidableEq, Repr

/-- The fields of `Config` (from `bot/config/settings.py`) that
`get_provider` reads: the three per-vendor API keys. -/
structure BotConfig where
  openrouterApiKey : String
  falApiKey : String
  geminiApiKey : String
deriving DecidableEq, Repr

/-- Which `Config` key each adapter constructor receives
(`FalProvider(config.fal_api_key, ...)` etc.). -/
def keyFor (cfg : BotConfig) : ProviderKind → String
  | .fal => cfg.falApiKey
  | .gemini => cfg.geminiApiKey
  | .openrouter => cfg.openrouterApiKey

/-- The module state: the `_provider_instances` dict plus the allocation
counter that models object identity of freshly constructed adapters. -/
structure CacheState where
  instances : List (String × ProviderInstance)
  nextId : Nat
deriving DecidableEq, Repr

/-- The model registry `PROVIDER_MODELS`, consumed as an opaque lookup from
logical name to the entry read by `get_provider`, namely its `'name'` field
(the vendor model id such as "google/gemini-2.5-pro"). -/
def Registry : Type := List (String × String)

/-- Python `str.split(sep)` for a one-character separator: the maximal
runs between separator occurrences, always at least one (possibly empty)
segment. -/
def splitOnChar (sep : Char) : List Char → List (List Char)
  | [] => [[]]
  | c :: rest =>
    if c = sep then [] :: splitOnChar sep rest
    else
      match splitOnChar sep rest with
      | [] => [[c]]
      | seg :: segs => (c :: seg) :: segs

/-- `model_config['name'].split('/')[0]`: the vendor family is the segment
of the vendor model id before the first "/" (the whole id when it has
none). -/
def vendorFamily (vid : String) : String :=
  String.mk ((splitOnChar '/' vid.data).headD [])

/-- The routing precedence table of `get_provider` (lines 48-56):
`fal-ai` family or logical name `fal` selects the Fal adapter; logical name
`gemini` or family `google` selects the Gemini adapter; families
openai/anthropic/perplexity or logical name `openrouter` select the
OpenRouter adapter; otherwise no adapter matches. -/
def routeProvider (provider_name provider_type : String) : Option ProviderKind :=
  if provider_type = "fal-ai" ∨ provider_name = "fal" then some .fal
  else if provider_name = "gemini" ∨ provider_type = "google" then some .gemini
  else if provider_type = "openai" ∨ provider_type = "anthropic" ∨
          provider_type = "perplexity" ∨ provider_name = "openrouter" then
    some .openrouter
  else none

/-- `get_provider(provider_name, config)`: serve from the cache when
present; otherwise consult `PROVIDER_MODELS`, derive the vendor family,
route to an adapter class, construct the instance with the matching API
key, store it in the cache and return it. Errors leave the state
unchanged. -/
def get_provider (registry : Registry) (cfg : BotConfig) (provider_name : String)
    (s : CacheState) : Except GetError ProviderInstance × CacheState :=
  match alistFind provider_name s.instances with
  | some inst => (.ok inst, s)
  | none =>
    match alistFind provider_name registry with
    | none => (.error .unknownModel, s)
    | some vid =>
      match routeProvider provider_name (vendorFamily vid) with
      | none => (.error .unimplementedProvider, s)
      | some k =>
        let inst : ProviderInstance := ⟨k, keyFor cfg k, s.nextId⟩
        (.ok inst, ⟨(provider_name, inst) :: s.instances, s.nextId + 1⟩)

/-- `clear_provider_instances()`: empty the cache. The allocation counter
is part of the model, not of the Python dict, and persists. -/
def clear_provider_instances (s : CacheState) : CacheState :=
  ⟨[], s.nextId⟩

/-- Well-formedness of a reachable cache state: every cached instance was
allocated before the current counter, and its key was validated against the
registry and routed successfully when it was stored. Holds of the empty
initial state and is preserved by both operations. -/
def CacheWF (registry : Registry) (s : CacheState) : Prop :=
  ∀ e ∈ s.instances,
    e.2.instId < s.nextId ∧
    ∃ vid, alistFind e.1 registry = some vid ∧
      (routeProvider e.1 (vendorFamily vid)).isSome

/-- Splitting at the first separator occurrence: the separator-free prefix
becomes the first segment. -/
theorem splitOnChar_append_sep (sep : Char) (la lb : List Char) (h : sep ∉ la) :
    splitOnChar sep (la ++ sep :: lb) = la :: splitOnChar sep lb := by
  induction la with
  | nil => simp [splitOnChar]
  | cons c rest ih =>
    have hc : ¬(c = sep) := fun hcs => h (hcs ▸ List.mem_cons_self _ _)
    have hrest : sep ∉ rest := fun hm => h (List.mem_cons_of_mem _ hm)
    simp [splitOnChar, hc, ih hrest]

/-- Membership extraction from a successful association-list lookup. -/
theorem alistFind_mem {β : Type} {k : String} {v : β} :
    ∀ {l : List (String × β)}, alistFind k l = some v → (k, v) ∈ l := by
  intro l
  induction l with
  | nil => intro h; simp [alistFind] at h
  | cons p rest ih =>
    intro h
    obtain ⟨k', v'⟩ := p
    by_cases hk : k' = k
    · subst hk
      simp only [alistFind, if_pos] at h
      cases h
      exact List.mem_cons_self _ _
    · simp only [alistFind, hk, ite_false] at h
      exact List.mem_cons_of_mem _ (ih h)

/-! ## Gemini adapter data model (`bot/services/ai_providers/gemini.py`) -/

/-- A Python value found in the `content` field of a history entry:
either a string or some non-string value (only strings survive the
`isinstance(content, str)` guard). -/
inductive PyVal where
  | str (s : String)
  | nonStr
deriving DecidableEq, Repr

/-- One caller-supplied history entry, modelled by its `role` and
`content` fields when present. A non-dict entry behaves exactly like one
with neither field: both are skipped by the same guard (line 54). -/
structure HistMsg where
  role : Option String
  content : Option PyVal
deriving DecidableEq, Repr

/-- One part of a Gemini `contents` turn: plain text, or an inline
base64 image attachment tagged with a mime type. -/
inductive GPart where
  | text (s : String)
  | inlineData (mimeType : String) (data : String)
deriving DecidableEq, Repr

/-- One turn of the Gemini `contents` payload. -/
structure GMessage where
  role : String
  parts : List GPart
deriving DecidableEq, Repr

/-- The fields of `model_config` the adapter reads: `name` (accessed both
guardedly at line 38 and unguardedly at line 76, hence optional here),
`vision` (read with `.get("vision", False)`) and `max_output_tokens`
(read with `.get("max_output_tokens", 2048)`). -/
structure ModelCfg where
  name : Option String
  vision : Bool
  maxOutputTokens : Option Nat
deriving DecidableEq, Repr

/-- Python truthiness of the optional image byte string: `None` and `b""`
are falsy. -/
def imageTruthy : Option (List Nat) → Bool
  | none => false
  | some bs => !bs.isEmpty

/-- `has_vision = bool(model_config.get("vision", False) and image)`
(line 34). -/
def hasVision (cfg : ModelCfg) (image : Option (List Nat)) : Bool :=
  cfg.vision && imageTruthy image

/-- Python `s.strip()` is empty, i.e. `s` is empty or whitespace-only. -/
def isBlankL (l : List Char) : Bool := l.all Char.isWhitespace

/-- Blankness of a string. -/
def isBlank (s : String) : Bool := isBlankL s.data

/-- `role_map.get(msg["role"])` (lines 58-64): user→user,
assistant→model, system→user, anything else unmapped. -/
def roleMap (r : String) : Option String :=
  if r = "user" then some "user"
  else if r = "assistant" then some "model"
  else if r = "system" then some "user"
  else none

/-- The per-entry step of the history-normalization loop (lines 53-73):
the formatted turn, or `none` when the entry is dropped (missing field,
non-string content, unmapped role, or blank text). -/
def convertMsg (msg : HistMsg) : Option GMessage :=
  match msg.role, msg.content with
  | some r, some (.str s) =>
    match roleMap r with
    | some r' => if isBlank s then none else some ⟨r', [GPart.text s]⟩
    | none => none
  | _, _ => none

/-- The history-normalization loop itself, appending each surviving
formatted entry in order. -/
def formatHistory (history : List HistMsg) : List GMessage :=
  history.foldl (fun acc msg =>
    match convertMsg msg with
    | some g => acc ++ [g]
    | none => acc) []

/-- Python `str.startswith`. -/
def startsWithB (pre s : String) : Bool := pre.data.isPrefixOf s.data

/-- `part.get("text", "")`. -/
def partTextOrEmpty : GPart → String
  | .text s => s
  | .inlineData _ _ => ""

/-- The injection guard (lines 77-80): does the first formatted entry
look like an injected prompt, i.e. is it a user turn one of whose parts
has text starting with "You are"? -/
def firstLooksInjected (fh : List GMessage) : Bool :=
  (fh.take 1).any (fun m =>
    m.role == "user" &&
    m.parts.any (fun pt => startsWithB "You are" (partTextOrEmpty pt)))

/-- The acknowledgment turn text inserted after the injected prompt
(line 89). -/
def ackText : String := "I understand and will follow these guidelines."

/-- System-prompt injection (lines 75-90): when the configured prompt is
present and non-empty and the first formatted entry does not look
injected, prepend the synthetic user prompt turn and the synthetic model
acknowledgment turn. -/
def injectSystemPrompt (systemPrompt : Option String) (fh : List GMessage) :
    List GMessage :=
  match systemPrompt with
  | none => fh
  | some p =>
    if p ≠ "" && !(firstLooksInjected fh) then
      ⟨"user", [GPart.text p]⟩ :: ⟨"model", [GPart.text ackText]⟩ :: fh
    else fh

/-- Modelled from the spec: `_get_system_prompt` is defined in
`bot/services/ai_providers/base.py`, which is not among the provided
sources; the spec says only that a system prompt may or may not be
"configured for this model". It is therefore modelled as an arbitrary
map from the vendor model id to an optional prompt and passed as a
parameter wherever the adapter consults it. -/
def SystemPromptSource : Type := String → Option String

/-- The base64 alphabet used by `base64.b64encode`. -/
def base64Chars : List Char :=
  "ABCDEFGHIJKLMNOPQRSTUVWXYZabcdefghijklmnopqrstuvwxyz0123456789+/".data

/-- The base64 digit for a six-bit group. -/
def b64Char (n : Nat) : Char := base64Chars.getD n 'A'

/-- `base64.b64encode(image).decode("utf-8")` on a byte sequence
(line 105). -/
def base64Encode : List Nat → String
  | [] => ""
  | [a] =>
    String.mk [b64Char (a / 4), b64Char (a % 4 * 16), '=', '=']
  | [a, b] =>
    String.mk [b64Char (a / 4), b64Char (a % 4 * 16 + b / 16),
      b64Char (b % 16 * 4), '=']
  | a :: b :: c :: rest =>
    String.mk [b64Char (a / 4), b64Char (a % 4 * 16 + b / 16),
      b64Char (b % 16 * 4 + c / 64), b64Char (c % 64)] ++ base64Encode rest

/-- Current-turn construction (lines 92-111): a user turn holding the
message text when the message is non-empty, plus — when the image is
truthy and the vision endpoint is in use — the inline base64 attachment
tagged "image/jpeg". -/
def currentMessage (message : String) (image : Option (List Nat)) (hasV : Bool) :
    GMessage :=
  ⟨"user",
    (if message = "" then [] else [GPart.text message]) ++
    (match image with
     | some bs =>
       if !bs.isEmpty && hasV then
         [GPart.inlineData "image/jpeg" (base64Encode bs)]
       else []
     | none => [])⟩

/-- Python substring membership `needle in haystack`. -/
def containsSub (needle : List Char) : List Char → Bool
  | [] => needle.isPrefixOf []
  | c :: rest => needle.isPrefixOf (c :: rest) || containsSub needle rest

/-- Python `str.lower()`. -/
def lowerStr (s : String) : String := String.mk (s.data.map Char.toLower)

/-- `self.model` set in `__init__` (line 19). -/
def defaultModel : String := "models/gemini-pro"

/-- `self.vision_model` set in `__init__` (line 20). -/
def defaultVisionModel : String := "models/gemini-pro-vision"

/-- Model-path selection (lines 33-45): start from the default (vision)
model; when the vendor model id contains "gemini" case-insensitively and
its last "/"-segment has at least two "-"-separated tokens, rebuild the
path as `models/gemini-{token1}-pro`, adding `-vision` when the vision
endpoint is in use. -/
def activeModel (nm : String) (hasV : Bool) : String :=
  let base := if hasV then defaultVisionModel else defaultModel
  if containsSub "gemini".data (lowerStr nm).data then
    let lastSeg := (splitOnChar '/' nm.data).getLastD []
    let parts := splitOnChar '-' lastSeg
    if parts.length ≥ 2 then
      let baseModel := "gemini-" ++ String.mk (parts.getD 1 []) ++ "-pro"
      if hasV then "models/" ++ baseModel ++ "-vision" else "models/" ++ baseModel
    else base
  else base

/-- `self.base_url` (line 18). -/
def baseUrl : String := "https://generativelanguage.googleapis.com/v1beta"

/-- The endpoint URL (line 48). -/
def endpointFor (nm : String) (hasV : Bool) : String :=
  baseUrl ++ "/" ++ activeModel nm hasV ++ ":streamGenerateContent"

/-- The request data computed before the HTTP call: the endpoint, the
`contents` payload (normalized history with injected prompt, then the
current turn) and the `maxOutputTokens` generation parameter. -/
structure GeminiRequest where
  endpoint : String
  contents : List GMessage
  maxOutputTokens : Nat
deriving DecidableEq, Repr

/-- Assembly of the outgoing request (lines 33-121). -/
def buildRequest (getSystemPrompt : SystemPromptSource) (message : String)
    (cfg : ModelCfg) (nm : String) (history : List HistMsg)
    (image : Option (List Nat)) : GeminiRequest :=
  let hasV := hasVision cfg image
  let fh := injectSystemPrompt (getSystemPrompt nm) (formatHistory history)
  ⟨endpointFor nm hasV,
   fh ++ [currentMessage message image hasV],
   cfg.maxOutputTokens.getD 2048⟩

/-! ## Gemini adapter streaming decode -/

/-- JSON values as produced by `json.loads`. Numeric literals are kept as
their raw character run: the adapter never reads a numeric field, only
the nested `candidates`/`content`/`parts`/`text` structure. -/
inductive Json where
  | null
  | bool (b : Bool)
  | num (lit : List Char)
  | str (s : String)
  | arr (elems : List Json)
  | obj (members : List (String × Json))

/-- Python dict lookup on an object built by `json.loads`: for duplicate
keys the last occurrence wins. -/
def jGet (members : List (String × Json)) (k : String) : Option Json :=
  alistFind k members.reverse

/-- The opening brace character. -/
def lbrace : Char := Char.ofNat 123

/-- The closing brace character. -/
def rbrace : Char := Char.ofNat 125

/-- Skip JSON whitespace. -/
def skipWs : List Char → List Char
  | [] => []
  | c :: rest => if c.isWhitespace then skipWs rest else c :: rest

/-- Characters that may appear in a JSON numeric literal. -/
def isNumChar (c : Char) : Bool :=
  c.isDigit || c = '-' || c = '+' || c = '.' || c = 'e' || c = 'E'

/-- The value of a hexadecimal digit. -/
def hexVal (c : Char) : Option Nat :=
  if c.isDigit then some (c.toNat - 48)
  else if 'a' ≤ c ∧ c ≤ 'f' then some (c.toNat - 87)
  else if 'A' ≤ c ∧ c ≤ 'F' then some (c.toNat - 55)
  else none

/-- Parse the remainder of a JSON string literal (after the opening
quote), handling the standard escapes; returns the content and the rest
of the input after the closing quote. -/
def parseJString : Nat → List Char → Option (List Char × List Char)
  | 0, _ => none
  | _ + 1, [] => none
  | fuel + 1, c :: rest =>
    if c = '"' then some ([], rest)
    else if c = '\\' then
      match rest with
      | [] => none
      | e :: rest2 =>
        if e = '"' ∨ e = '\\' ∨ e = '/' then
          (parseJString fuel rest2).map (fun p => (e :: p.1, p.2))
        else if e = 'n' then
          (parseJString fuel rest2).map (fun p => ('\n' :: p.1, p.2))
        else if e = 't' then
          (parseJString fuel rest2).map (fun p => ('\t' :: p.1, p.2))
        else if e = 'r' then
          (parseJString fuel rest2).map (fun p => ('\r' :: p.1, p.2))
        else if e = 'b' then
          (parseJString fuel rest2).map (fun p => (Char.ofNat 8 :: p.1, p.2))
        else if e = 'f' then
          (parseJString fuel rest2).map (fun p => (Char.ofNat 12 :: p.1, p.2))
        else if e = 'u' then
          match rest2 with
          | h1 :: h2 :: h3 :: h4 :: rest3 =>
            match hexVal h1, hexVal h2, hexVal h3, hexVal h4 with
            | some v1, some v2, some v3, some v4 =>
              (parseJString fuel rest3).map (fun p =>
                (Char.ofNat (v1 * 4096 + v2 * 256 + v3 * 16 + v4) :: p.1, p.2))
            | _, _, _, _ => none
          | _ => none
        else none
    else (parseJString fuel rest).map (fun p => (c :: p.1, p.2))

mutual

/-- Recursive-descent JSON value parser, fuelled; models `json.loads`. -/
def parseValue : Nat → List Char → Option (Json × List Char)
  | 0, _ => none
  | fuel + 1, cs =>
    match skipWs cs with
    | [] => none
    | c :: rest =>
      if c = lbrace then
        match skipWs rest with
        | c2 :: rest2 =>
          if c2 = rbrace then some (.obj [], rest2)
          else (parseMembers fuel (c2 :: rest2)).map (fun p => (.obj p.1, p.2))
        | [] => none
      else if c = '[' then
        match skipWs rest with
        | c2 :: rest2 =>
          if c2 = ']' then some (.arr [], rest2)
          else (parseElems fuel (c2 :: rest2)).map (fun p => (.arr p.1, p.2))
        | [] => none
      else if c = '"' then
        (parseJString (fuel + 1) rest).map (fun p => (.str (String.mk p.1), p.2))
      else if c = 't' then
        match rest with
        | 'r' :: 'u' :: 'e' :: rest2 => some (.bool true, rest2)
        | _ => none
      else if c = 'f' then
        match rest with
        | 'a' :: 'l' :: 's' :: 'e' :: rest2 => some (.bool false, rest2)
        | _ => none
      else if c = 'n' then
        match rest with
        | 'u' :: 'l' :: 'l' :: rest2 => some (.null, rest2)
        | _ => none
      else if c.isDigit ∨ c = '-' then
        some (.num (c :: rest.takeWhile isNumChar), rest.dropWhile isNumChar)
      else none

/-- Parse the members of a non-empty JSON object body, up to and
including the closing brace. -/
def parseMembers : Nat → List Char → Option (List (String × Json) × List Char)
  | 0, _ => none
  | fuel + 1, cs =>
    match skipWs cs with
    | '"' :: rest =>
      match parseJString (fuel + 1) rest with
      | none => none
      | some (key, rest2) =>
        match skipWs rest2 with
        | ':' :: rest3 =>
          match parseValue fuel rest3 with
          | none => none
          | some (v, rest4) =>
            match skipWs rest4 with
            | ',' :: rest5 =>
              (parseMembers fuel rest5).map (fun p =>
                ((String.mk key, v) :: p.1, p.2))
            | c :: rest5 =>
              if c = rbrace then some ([(String.mk key, v)], rest5) else none
            | [] => none
        | _ => none
    | _ => none

/-- Parse the elements of a non-empty JSON array body, up to and
including the closing bracket. -/
def parseElems : Nat → List Char → Option (List Json × List Char)
  | 0, _ => none
  | fuel + 1, cs =>
    match parseValue fuel cs with
    | none => none
    | some (v, rest) =>
      match skipWs rest with
      | ',' :: rest2 => (parseElems fuel rest2).map (fun p => (v :: p.1, p.2))
      | ']' :: rest2 => some ([v], rest2)
      | _ => none

end

/-- `json.loads`: one JSON document, with nothing but whitespace allowed
after it. -/
def jsonParse (cs : List Char) : Option Json :=
  match parseValue (2 * cs.length + 2) cs with
  | some (j, rest) => if (skipWs rest).isEmpty then some j else none
  | none => none

/-- Fragment extraction from one parsed stream object (lines 179-184 and
196-201): `candidates[0].content.parts[*].text`, with every malformed
shape contributing nothing (the code's exception handlers skip it). -/
def extractTexts : Json → List String
  | .obj members =>
    match jGet members "candidates" with
    | some (.arr (c :: _)) =>
      match c with
      | .obj cf =>
        match jGet cf "content" with
        | some (.obj contf) =>
          match jGet contf "parts" with
          | some (.arr parts) =>
            parts.filterMap (fun p =>
              match p with
              | .obj pf =>
                match jGet pf "text" with
                | some (.str s) => some s
                | _ => none
              | _ => none)
          | _ => []
        | _ => []
      | _ => []
    | _ => []
  | _ => []

/-- Handling of one complete line (lines 174-190) and equally of the
final buffer (lines 192-203): blank lines contribute nothing, parse
failures are logged and skipped, well-formed objects contribute their
extracted texts. -/
def processLine (parse : List Char → Option Json) (line : List Char) : List String :=
  if isBlankL line then []
  else
    match parse line with
    | some j => extractTexts j
    | none => []

/-- The inner `while "\n" in buffer` loop (lines 172-190), scanning for
the next newline; `cur` is the already-scanned prefix of the current
line. Returns the fragments of all complete lines and the leftover
buffer. -/
def drainLines (parse : List Char → Option Json) (cur : List Char) :
    List Char → List String × List Char
  | [] => ([], cur)
  | c :: rest =>
    if c = '\n' then
      let r := drainLines parse [] rest
      (processLine parse cur ++ r.1, r.2)
    else drainLines parse (cur ++ [c]) rest

/-- One network chunk: append its decoded text to the buffer and drain
complete lines (lines 168-190). -/
def feedChunk (parse : List Char → Option Json) (st : List String × List Char)
    (chunk : List Char) : List String × List Char :=
  let r := drainLines parse [] (st.2 ++ chunk)
  (st.1 ++ r.1, r.2)

/-- The user-facing message for HTTP 400 (line 157). -/
def msg400 : String :=
  "Sorry, I couldn\x27t process that request. It might contain content that can\x27t be handled."

/-- The user-facing message for HTTP 403 (line 159). -/
def msg403 : String := "API access error. Please check your Gemini API key."

/-- The user-facing message for HTTP 429 (line 161). -/
def msg429 : String := "The Gemini API rate limit has been reached. Please try again later."

/-- The user-facing message for any other non-200 status (line 163). -/
def msgOther (status : Nat) : String :=
  "Error communicating with Gemini API (HTTP " ++ toString status ++ ")."

/-- The user-facing message for `aiohttp.ClientError` (line 207). -/
def msgNetwork : String := "Network error occurred while connecting to Gemini API."

/-- The user-facing message for `asyncio.TimeoutError` (line 210). -/
def msgTimeout : String := "The request to Gemini API timed out. Please try again."

/-- The user-facing message for any other exception (line 213). -/
def unexpectedErrorMsg : String :=
  "An unexpected error occurred while processing your request."

/-- The non-200 status → message table (lines 156-163). -/
def errorMessageFor (status : Nat) : String :=
  if status = 400 then msg400
  else if status = 403 then msg403
  else if status = 429 then msg429
  else msgOther status

/-- Strict UTF-8 decoding as a byte-at-a-time state machine: `need` is
the number of continuation bytes still expected for the current
character and `acc` the partial code point (0 whenever `need` is 0). -/
def utf8DecodeAux : List Nat → Nat → Nat → Option (List Char)
  | [], need, _ => if need = 0 then some [] else none
  | b :: bs, 0, _ =>
    if b < 128 then
      (utf8DecodeAux bs 0 0).map (fun cs => Char.ofNat b :: cs)
    else if b < 194 then none
    else if b < 224 then utf8DecodeAux bs 1 (b - 192)
    else if b < 240 then utf8DecodeAux bs 2 (b - 224)
    else if b < 245 then utf8DecodeAux bs 3 (b - 240)
    else none
  | b :: bs, 1, acc =>
    if 128 ≤ b ∧ b < 192 then
      (utf8DecodeAux bs 0 0).map (fun cs =>
        Char.ofNat (acc * 64 + (b - 128)) :: cs)
    else none
  | b :: bs, need + 2, acc =>
    if 128 ≤ b ∧ b < 192 then utf8DecodeAux bs (need + 1) (acc * 64 + (b - 128))
    else none

/-- Strict UTF-8 decoding of a byte sequence, modelling
`bytes.decode("utf-8")` at line 169: `none` on any malformed or
truncated sequence (a `UnicodeDecodeError` in Python). -/
def utf8Decode (l : List Nat) : Option (List Char) := utf8DecodeAux l 0 0

/-- UTF-8 encoding of one character. -/
def utf8EncodeChar (c : Char) : List Nat :=
  let n := c.toNat
  if n < 128 then [n]
  else if n < 2048 then [192 + n / 64, 128 + n % 64]
  else if n < 65536 then [224 + n / 4096, 128 + n / 64 % 64, 128 + n % 64]
  else [240 + n / 262144, 128 + n / 4096 % 64, 128 + n / 64 % 64, 128 + n % 64]

/-- UTF-8 encoding of a character sequence (used to state concrete
response bodies at the byte level). -/
def utf8Encode : List Char → List Nat
  | [] => []
  | c :: rest => utf8EncodeChar c ++ utf8Encode rest

/-- The streaming-decode loop over the delivered body chunks
(lines 166-203): each chunk is UTF-8 decoded (an undecodable chunk
raises `UnicodeDecodeError`, which the outer handler at line 211 turns
into the single unexpected-error fragment, keeping fragments already
yielded), appended to the buffer, and complete newline-terminated lines
are parsed; after the stream ends the non-blank remainder gets one final
parse attempt. -/
def decodeBodyBytes (parse : List Char → Option Json) :
    List String × List Char → List (List Nat) → List String
  | (outs, buf), [] => outs ++ processLine parse buf
  | (outs, buf), ch :: rest =>
    match utf8Decode ch with
    | none => outs ++ [unexpectedErrorMsg]
    | some cs => decodeBodyBytes parse (feedChunk parse (outs, buf) cs) rest

/-- The observable outcome of the HTTP POST: a status plus the delivered
body chunks, or one of the three caught failure categories
(`aiohttp.ClientError`, `asyncio.TimeoutError`, any other exception). -/
inductive HttpOutcome where
  | response (status : Nat) (body : List (List Nat))
  | networkError
  | timeout
  | unexpectedFault
deriving DecidableEq, Repr

/-- `chat_completion_stream` (lines 24-213) as the finite sequence of
yielded text fragments, given the request inputs and the network
outcome. A missing `name` in `model_config` raises `KeyError` at
line 76 before any request is made, which the generic handler converts
into the unexpected-error fragment. -/
def chat_completion_stream (getSystemPrompt : SystemPromptSource)
    (message : String) (cfg : ModelCfg) (history : List HistMsg)
    (image : Option (List Nat)) (outcome : HttpOutcome) : List String :=
  match cfg.name with
  | none => [unexpectedErrorMsg]
  | some nm =>
    let _req := buildRequest getSystemPrompt message cfg nm history image
    match outcome with
    | .networkError => [msgNetwork]
    | .timeout => [msgTimeout]
    | .unexpectedFault => [unexpectedErrorMsg]
    | .response status body =>
      if status ≠ 200 then [errorMessageFor status]
      else decodeBodyBytes jsonParse ([], []) body

/-- Invariant used by C10: every cached key is a key of the registry. -/
def CacheKeysValid (registry : Registry) (s : CacheState) : Prop :=
  ∀ e ∈ s.instances, (alistFind e.1 registry).isSome

/-- The concrete JSON line used in the C1 analysis, containing one
two-byte UTF-8 character in its `text` field. -/
def c1Line : String :=
  "\x7b\"candidates\":[\x7b\"content\":\x7b\"parts\":[\x7b\"text\":\"é\"\x7d]\x7d\x7d]\x7d"

/-- Its response body bytes. -/
def c1Body : List Nat := utf8Encode c1Line.data

/-- A split point falling between the two bytes of the final "é". -/
def c1Split : Nat := c1Body.length - 8

/-- An all-ASCII stream line (one JSON object), used to exhibit the
split-invariance of the decode loop at character-boundary splits. -/
def c1AsciiLine : String :=
  "\x7b\"candidates\":[\x7b\"content\":\x7b\"parts\":[\x7b\"text\":\"hi\"\x7d]\x7d\x7d]\x7d"

/-! ## Helper lemmas for the cache operations -/

/-- Cache hit: `get_provider` returns the stored instance and leaves the
state unchanged. -/
theorem get_provider_hit {registry : Registry} {cfg : BotConfig} {name : String}
    {s : CacheState} {inst : ProviderInstance}
    (hfind : alistFind name s.instances = some inst) :
    get_provider registry cfg name s = (.ok inst, s) := by
  simp [get_provider, hfind]

/-- Unknown model: name neither cached nor in the registry. -/
theorem get_provider_unknown {registry : Registry} {cfg : BotConfig} {name : String}
    {s : CacheState}
    (hfind : alistFind name s.instances = none)
    (hreg : alistFind name registry = none) :
    get_provider registry cfg name s = (.error .unknownModel, s) := by
  simp [get_provider, hfind, hreg]

/-- Unimplemented provider: the registry entry resolves but no routing rule
matches. -/
theorem get_provider_unimpl {registry : Registry} {cfg : BotConfig} {name : String}
    {s : CacheState} {vid : String}
    (hfind : alistFind name s.instances = none)
    (hreg : alistFind name registry = some vid)
    (hroute : routeProvider name (vendorFamily vid) = none) :
    get_provider registry cfg name s = (.error .unimplementedProvider, s) := by
  simp [get_provider, hfind, hreg, hroute]

/-- Construction: a fresh instance is allocated, cached and returned. -/
theorem get_provider_construct {registry : Registry} {cfg : BotConfig} {name : String}
    {s : CacheState} {vid : String} {k : ProviderKind}
    (hfind : alistFind name s.instances = none)
    (hreg : alistFind name registry = some vid)
    (hroute : routeProvider name (vendorFamily vid) = some k) :
    get_provider registry cfg name s =
      (.ok ⟨k, keyFor cfg k, s.nextId⟩,
       ⟨(name, ⟨k, keyFor cfg k, s.nextId⟩) :: s.instances, s.nextId + 1⟩) := by
  simp [get_provider, hfind, hreg, hroute]

/-- `CacheWF` holds of the initial empty cache and is preserved by both
operations. -/
theorem cacheWF_preserved {registry : Registry} {cfg : BotConfig} {name : String}
    {s : CacheState} (h : CacheWF registry s) :
    CacheWF registry (get_provider registry cfg name s).2 ∧
    CacheWF registry (clear_provider_instances s) := by
  constructor
  · cases hfind : alistFind name s.instances with
    | some inst => rw [get_provider_hit hfind]; exact h
    | none =>
      cases hreg : alistFind name registry with
      | none => rw [get_provider_unknown hfind hreg]; exact h
      | some vid =>
        cases hroute : routeProvider name (vendorFamily vid) with
        | none => rw [get_provider_unimpl hfind hreg hroute]; exact h
        | some k =>
          rw [get_provider_construct hfind hreg hroute]
          intro e he
          rcases List.mem_cons.mp he with he | he
          · subst he
            exact ⟨Nat.lt_succ_self _, vid, hreg, by simp [hroute]⟩
          · obtain ⟨hlt, vid', hv, hr⟩ := h e he
            exact ⟨Nat.lt_succ_of_lt hlt, vid', hv, hr⟩
  · intro e he
    cases he

/-! ## Claim theorems: provider registry / cache -/

/-- C2: for every logical name that resolves successfully, a second
`get_provider` call with the same name returns the identical cached
instance with the state unchanged, and after `clear_provider_instances`
the next call with that name constructs and returns a new instance
(distinct from the first). -/
theorem claim_C2_cache_identity (registry : Registry) (cfg : BotConfig)
    (name : String) (s : CacheState) (p : ProviderInstance) (s₁ : CacheState)
    (hwf : CacheWF registry s)
    (h : get_provider registry cfg name s = (.ok p, s₁)) :
    get_provider registry cfg name s₁ = (.ok p, s₁) ∧
    ∃ q s₂, get_provider registry cfg name (clear_provider_instances s₁) = (.ok q, s₂) ∧
      q ≠ p := by
  cases hfind : alistFind name s.instances with
  | some inst =>
    rw [get_provider_hit hfind] at h
    have hp : inst = p := by
      have := congrArg Prod.fst h
      simpa using this
    have hs : s = s₁ := congrArg Prod.snd h
    subst hp
    subst hs
    refine ⟨get_provider_hit hfind, ?_⟩
    obtain ⟨hlt, vid, hv, hr⟩ := hwf _ (alistFind_mem hfind)
    obtain ⟨k, hk⟩ := Option.isSome_iff_exists.mp hr
    refine ⟨⟨k, keyFor cfg k, s.nextId⟩, _,
      get_provider_construct (s := clear_provider_instances s) rfl hv hk, ?_⟩
    intro hq
    exact absurd (congrArg ProviderInstance.instId hq) (by simpa using Nat.ne_of_gt hlt)
  | none =>
    cases hreg : alistFind name registry with
    | none =>
      rw [get_provider_unknown hfind hreg] at h
      have := congrArg Prod.fst h
      simp at this
    | some vid =>
      cases hroute : routeProvider name (vendorFamily vid) with
      | none =>
        rw [get_provider_unimpl hfind hreg hroute] at h
        have := congrArg Prod.fst h
        simp at this
      | some k =>
        rw [get_provider_construct hfind hreg hroute] at h
        have hp : (⟨k, keyFor cfg k, s.nextId⟩ : ProviderInstance) = p := by
          have := congrArg Prod.fst h
          simpa using this
        have hs : (⟨(name, ⟨k, keyFor cfg k, s.nextId⟩) :: s.instances, s.nextId + 1⟩ :
            CacheState) = s₁ := congrArg Prod.snd h
        subst hp
        subst hs
        refine ⟨get_provider_hit (by simp [alistFind]), ?_⟩
        refine ⟨⟨k, keyFor cfg k, s.nextId + 1⟩, _,
          get_provider_construct (s := clear_provider_instances _) rfl hreg hroute, ?_⟩
        intro hq
        exact absurd (congrArg ProviderInstance.instId hq) (by simp)

/-- C2 witness at a concrete registry, configuration and run. -/
theorem claim_C2_cache_identity_witness :
    get_provider [("gemini", "google/gemini-2.5-pro")] ⟨"ok", "fk", "gk"⟩ "gemini"
        ⟨[("gemini", ⟨.gemini, "gk", 0⟩)], 1⟩ =
      (.ok ⟨.gemini, "gk", 0⟩, ⟨[("gemini", ⟨.gemini, "gk", 0⟩)], 1⟩) ∧
    ∃ q s₂,
      get_provider [("gemini", "google/gemini-2.5-pro")] ⟨"ok", "fk", "gk"⟩ "gemini"
          (clear_provider_instances ⟨[("gemini", ⟨.gemini, "gk", 0⟩)], 1⟩) =
        (.ok q, s₂) ∧ q ≠ ⟨.gemini, "gk", 0⟩ :=
  claim_C2_cache_identity [("gemini", "google/gemini-2.5-pro")] ⟨"ok", "fk", "gk"⟩
    "gemini" ⟨[], 0⟩ ⟨.gemini, "gk", 0⟩ ⟨[("gemini", ⟨.gemini, "gk", 0⟩)], 1⟩
    (by intro e he; cases he) rfl

/-- C3: for a name not in the cache, `get_provider` fails with
`unknownModel` (cache unchanged) when the name is absent from the
registry; otherwise it routes by the fixed precedence table over the
vendor family (the segment of the vendor model id before "/"), and fails
with `unimplementedProvider` (cache unchanged) when no rule matches. -/
theorem claim_C3_routing_and_errors (registry : Registry) (cfg : BotConfig)
    (name : String) (s : CacheState)
    (hnc : alistFind name s.instances = none) :
    (alistFind name registry = none →
      get_provider registry cfg name s = (.error .unknownModel, s)) ∧
    (∀ a b : String, '/' ∉ a.data → vendorFamily (a ++ "/" ++ b) = a) ∧
    (∀ vid, alistFind name registry = some vid →
      ((name = "fal" ∨ vendorFamily vid = "fal-ai") →
        routeProvider name (vendorFamily vid) = some .fal) ∧
      (¬(name = "fal" ∨ vendorFamily vid = "fal-ai") →
        (vendorFamily vid = "google" ∨ name = "gemini") →
        routeProvider name (vendorFamily vid) = some .gemini) ∧
      (¬(name = "fal" ∨ vendorFamily vid = "fal-ai") →
        ¬(vendorFamily vid = "google" ∨ name = "gemini") →
        (vendorFamily vid = "openai" ∨ vendorFamily vid = "anthropic" ∨
          vendorFamily vid = "perplexity" ∨ name = "openrouter") →
        routeProvider name (vendorFamily vid) = some .openrouter) ∧
      (routeProvider name (vendorFamily vid) = none →
        get_provider registry cfg name s = (.error .unimplementedProvider, s)) ∧
      (∀ k, routeProvider name (vendorFamily vid) = some k →
        (get_provider registry cfg name s).1 = .ok ⟨k, keyFor cfg k, s.nextId⟩)) := by
  refine ⟨fun hreg => get_provider_unknown hnc hreg, ?_, fun vid hreg => ?_⟩
  · intro a b hn
    obtain ⟨la⟩ := a
    have hdata : (String.mk la ++ "/" ++ b).data = la ++ '/' :: b.data := by
      rw [String.data_append, String.data_append]
      simp
    simp only [vendorFamily, hdata, splitOnChar_append_sep '/' la b.data hn,
      List.headD_cons]
  refine ⟨?_, ?_, ?_, fun hroute => get_provider_unimpl hnc hreg hroute,
    fun k hroute => by rw [get_provider_construct hnc hreg hroute]⟩
  · intro hc
    simp only [routeProvider, if_pos (Or.symm hc)]
  · intro hc1 hc2
    simp only [routeProvider, if_neg (fun hx => hc1 (Or.symm hx)),
      if_pos (Or.symm hc2)]
  · intro hc1 hc2 hc3
    have hc3' : vendorFamily vid = "openai" ∨ vendorFamily vid = "anthropic" ∨
        vendorFamily vid = "perplexity" ∨ name = "openrouter" := hc3
    simp only [routeProvider, if_neg (fun hx => hc1 (Or.symm hx)),
      if_neg (fun hx => hc2 (Or.symm hx)), if_pos hc3']

/-- C3 witness: an unregistered name errors with the cache unchanged, and a
registered name with an unroutable vendor family errors with
`unimplementedProvider`. -/
theorem claim_C3_routing_and_errors_witness :
    get_provider [("mystery", "weird/model")] ⟨"ok", "fk", "gk"⟩ "missing" ⟨[], 0⟩ =
      (.error .unknownModel, ⟨[], 0⟩) ∧
    get_provider [("mystery", "weird/model")] ⟨"ok", "fk", "gk"⟩ "mystery" ⟨[], 0⟩ =
      (.error .unimplementedProvider, ⟨[], 0⟩) :=
  ⟨(claim_C3_routing_and_errors [("mystery", "weird/model")] ⟨"ok", "fk", "gk"⟩
      "missing" ⟨[], 0⟩ rfl).1 rfl,
   (((claim_C3_routing_and_errors [("mystery", "weird/model")] ⟨"ok", "fk", "gk"⟩
      "mystery" ⟨[], 0⟩ rfl).2.2 "weird/model" rfl).2.2.2.1) rfl⟩

/-- C10: the invariant "every cache key is a registry key" is preserved by
`get_provider` (which only stores after confirming registry membership)
and by `clear_provider_instances`; and a cached name is served without
consulting the registry: the result is the stored instance, identically
for every registry. -/
theorem claim_C10_cache_key_invariant (registry : Registry) (cfg : BotConfig)
    (name : String) (s : CacheState) (h : CacheKeysValid registry s) :
    CacheKeysValid registry (get_provider registry cfg name s).2 ∧
    CacheKeysValid registry (clear_provider_instances s) ∧
    (∀ inst, alistFind name s.instances = some inst →
      ∀ registry2 : Registry, get_provider registry2 cfg name s = (.ok inst, s)) := by
  refine ⟨?_, ?_, ?_⟩
  case refine_2 => intro e he; cases he
  case refine_3 => intro inst hfind _; exact get_provider_hit hfind
  cases hfind : alistFind name s.instances with
  | some inst => rw [get_provider_hit hfind]; exact h
  | none =>
    cases hreg : alistFind name registry with
    | none => rw [get_provider_unknown hfind hreg]; exact h
    | some vid =>
      cases hroute : routeProvider name (vendorFamily vid) with
      | none => rw [get_provider_unimpl hfind hreg hroute]; exact h
      | some k =>
        rw [get_provider_construct hfind hreg hroute]
        intro e he
        rcases List.mem_cons.mp he with he | he
        · subst he; simp [hreg]
        · exact h e he

/-- C10 witness at a concrete state whose single cached key is in the
registry. -/
theorem claim_C10_cache_key_invariant_witness :
    CacheKeysValid [("gemini", "google/gemini-2.5-pro")]
      (get_provider [("gemini", "google/gemini-2.5-pro")] ⟨"ok", "fk", "gk"⟩ "gemini"
        ⟨[("gemini", ⟨.gemini, "gk", 0⟩)], 1⟩).2 ∧
    CacheKeysValid [("gemini", "google/gemini-2.5-pro")]
      (clear_provider_instances ⟨[("gemini", ⟨.gemini, "gk", 0⟩)], 1⟩) ∧
    (∀ inst,
      alistFind "gemini" (⟨[("gemini", ⟨.gemini, "gk", 0⟩)], 1⟩ : CacheState).instances =
        some inst →
      ∀ registry2 : Registry,
        get_provider registry2 ⟨"ok", "fk", "gk"⟩ "gemini"
          ⟨[("gemini", ⟨.gemini, "gk", 0⟩)], 1⟩ =
        (.ok inst, ⟨[("gemini", ⟨.gemini, "gk", 0⟩)], 1⟩)) :=
  claim_C10_cache_key_invariant [("gemini", "google/gemini-2.5-pro")] ⟨"ok", "fk", "gk"⟩
    "gemini" ⟨[("gemini", ⟨.gemini, "gk", 0⟩)], 1⟩
    (by
      intro e he
      simp only [List.mem_singleton] at he
      subst he
      decide)

/-! ## Helper lemmas for the Gemini adapter -/

/-- The normalization fold with an arbitrary accumulator. -/
theorem formatHistory_foldl (l : List HistMsg) : ∀ acc : List GMessage,
    List.foldl (fun acc msg =>
      match convertMsg msg with
      | some g => acc ++ [g]
      | none => acc) acc l = acc ++ l.filterMap convertMsg := by
  induction l with
  | nil => intro acc; simp
  | cons x rest ih =>
    intro acc
    cases hx : convertMsg x with
    | some g =>
      simp only [List.foldl_cons, hx, List.filterMap_cons, ih]
      simp
    | none =>
      simp only [List.foldl_cons, hx, List.filterMap_cons, ih]

/-- History normalization is the order-preserving partial map
`convertMsg`. -/
theorem formatHistory_eq (l : List HistMsg) :
    formatHistory l = l.filterMap convertMsg := by
  simpa [formatHistory] using formatHistory_foldl l []

/-- The vision model path is always the text model path with the
"-vision" suffix, in every branch of the selection logic. -/
theorem activeModel_vision_suffix (nm : String) :
    activeModel nm true = activeModel nm false ++ "-vision" := by
  unfold activeModel
  by_cases hc : containsSub "gemini".data (lowerStr nm).data = true
  · simp only [hc, if_true]
    by_cases hl : (splitOnChar '-' ((splitOnChar '/' nm.data).getLastD [])).length ≥ 2
    · simp only [if_pos hl, Bool.false_eq_true, if_false]
    · simp only [if_neg hl]
      rfl
  · simp only [Bool.not_eq_true] at hc
    simp only [hc, Bool.false_eq_true, if_false]
    rfl

/-! ## Claim theorems: Gemini history normalization and prompt injection -/

/-- C7: history normalization maps user→user, assistant→model,
system→user, drops entries with a missing field, a non-string content, an
unmapped role or blank text, and preserves the relative order of the
survivors (it is the partial map `convertMsg` over the history). -/
theorem claim_C7_history_normalization (history : List HistMsg) (r s : String)
    (c : PyVal) :
    formatHistory history = history.filterMap convertMsg ∧
    roleMap "user" = some "user" ∧
    roleMap "assistant" = some "model" ∧
    roleMap "system" = some "user" ∧
    (r ≠ "user" → r ≠ "assistant" → r ≠ "system" → roleMap r = none) ∧
    convertMsg ⟨none, some c⟩ = none ∧
    convertMsg ⟨some r, none⟩ = none ∧
    convertMsg ⟨some r, some .nonStr⟩ = none ∧
    (roleMap r = none → convertMsg ⟨some r, some (.str s)⟩ = none) ∧
    convertMsg ⟨some r, some (.str s)⟩ =
      (match roleMap r with
       | some r2 => if isBlank s then none else some ⟨r2, [GPart.text s]⟩
       | none => none) := by
  refine ⟨formatHistory_eq history, rfl, rfl, rfl, ?_, rfl, rfl, rfl, ?_, rfl⟩
  · intro h1 h2 h3
    simp [roleMap, h1, h2, h3]
  · intro h
    simp [convertMsg, h]

/-- C7 witness on a concrete history exercising every drop rule and both
role translations. -/
theorem claim_C7_history_normalization_witness :
    formatHistory
        [⟨some "system", some (.str "be brief")⟩,
         ⟨some "weird", some (.str "x")⟩,
         ⟨none, some (.str "hi")⟩,
         ⟨some "user", some (.str "  ")⟩,
         ⟨some "assistant", some (.str "yo")⟩] =
      List.filterMap convertMsg
        [⟨some "system", some (.str "be brief")⟩,
         ⟨some "weird", some (.str "x")⟩,
         ⟨none, some (.str "hi")⟩,
         ⟨some "user", some (.str "  ")⟩,
         ⟨some "assistant", some (.str "yo")⟩] ∧
    roleMap "weird" = none :=
  ⟨(claim_C7_history_normalization
      [⟨some "system", some (.str "be brief")⟩,
       ⟨some "weird", some (.str "x")⟩,
       ⟨none, some (.str "hi")⟩,
       ⟨some "user", some (.str "  ")⟩,
       ⟨some "assistant", some (.str "yo")⟩] "weird" "x" .nonStr).1,
   (claim_C7_history_normalization
      [⟨some "system", some (.str "be brief")⟩,
       ⟨some "weird", some (.str "x")⟩,
       ⟨none, some (.str "hi")⟩,
       ⟨some "user", some (.str "  ")⟩,
       ⟨some "assistant", some (.str "yo")⟩] "weird" "x" .nonStr).2.2.2.2.1
     (by decide) (by decide) (by decide)⟩

/-- C4 counterexample: with the configured prompt "Be nice." and a
normalized history whose first entry is exactly the injected prompt turn,
the code still prepends the prompt and acknowledgment (its guard tests a
"You are" prefix, not equality with the prompt), so the history is not
left unchanged as the claim requires. -/
theorem claim_C4_counterexample :
    List.head? [(⟨"user", [GPart.text "Be nice."]⟩ : GMessage)] =
      some ⟨"user", [GPart.text "Be nice."]⟩ ∧
    injectSystemPrompt (some "Be nice.") [⟨"user", [GPart.text "Be nice."]⟩] =
      [⟨"user", [GPart.text "Be nice."]⟩, ⟨"model", [GPart.text ackText]⟩,
       ⟨"user", [GPart.text "Be nice."]⟩] ∧
    injectSystemPrompt (some "Be nice.") [⟨"user", [GPart.text "Be nice."]⟩] ≠
      [⟨"user", [GPart.text "Be nice."]⟩] := by
  refine ⟨rfl, rfl, ?_⟩
  decide

/-- C4 (amended): the synthetic prompt and acknowledgment turns are
prepended exactly when the configured prompt is present and non-empty and
the first normalized history entry is not a user turn one of whose parts'
text starts with "You are" (the code's heuristic for an already-injected
prompt); otherwise the history is left unchanged. -/
theorem claim_C4_injection_amended (p : String) (fh : List GMessage)
    (hp : p ≠ "") :
    (firstLooksInjected fh = false →
      injectSystemPrompt (some p) fh =
        ⟨"user", [GPart.text p]⟩ :: ⟨"model", [GPart.text ackText]⟩ :: fh) ∧
    (firstLooksInjected fh = true → injectSystemPrompt (some p) fh = fh) ∧
    injectSystemPrompt none fh = fh ∧
    injectSystemPrompt (some "") fh = fh ∧
    (∀ m rest, fh = m :: rest →
      firstLooksInjected fh =
        (m.role == "user" &&
          m.parts.any (fun pt => startsWithB "You are" (partTextOrEmpty pt)))) := by
  refine ⟨?_, ?_, rfl, ?_, ?_⟩
  · intro h
    simp [injectSystemPrompt, h, hp]
  · intro h
    simp [injectSystemPrompt, h]
  · simp [injectSystemPrompt]
  · intro m rest h
    subst h
    simp [firstLooksInjected]

/-- C4 amended witness: a "You are" prompt is prepended to an empty
history together with the acknowledgment turn. -/
theorem claim_C4_injection_amended_witness :
    injectSystemPrompt (some "You are helpful.") [] =
      [⟨"user", [GPart.text "You are helpful."]⟩,
       ⟨"model", [GPart.text ackText]⟩] :=
  (claim_C4_injection_amended "You are helpful." [] (by decide)).1 rfl

/-! ## Claim theorems: Gemini endpoint and current-turn construction -/

/-- C8: the vision endpoint is chosen exactly when the request carries a
(truthy) image and the model's vision flag is set; with an image but the
flag unset, the endpoint equals the text-only one and no inline image
attachment appears in the current turn. -/
theorem claim_C8_vision_endpoint (cfg : ModelCfg) (nm message : String)
    (bs : List Nat) (gsp : SystemPromptSource) (history : List HistMsg)
    (hb : bs ≠ []) (hv : cfg.vision = false) :
    hasVision cfg (some bs) = (cfg.vision && imageTruthy (some bs)) ∧
    activeModel nm true = activeModel nm false ++ "-vision" ∧
    endpointFor nm (hasVision cfg (some bs)) = endpointFor nm false ∧
    (buildRequest gsp message cfg nm history (some bs)).endpoint =
      endpointFor nm false ∧
    (currentMessage message (some bs) (hasVision cfg (some bs))).parts =
      (if message = "" then [] else [GPart.text message]) ∧
    (∀ mt d, GPart.inlineData mt d ∉
      (currentMessage message (some bs) (hasVision cfg (some bs))).parts) := by
  have h0 : hasVision cfg (some bs) = false := by simp [hasVision, hv]
  refine ⟨rfl, activeModel_vision_suffix nm, by rw [h0], ?_, ?_, ?_⟩
  · simp [buildRequest, h0]
  · simp [currentMessage, h0]
  · intro mt d hmem
    simp only [currentMessage, h0, Bool.and_false, if_false] at hmem
    rcases List.mem_append.mp hmem with hm | hm
    · by_cases hmsg : message = ""
      · simp [hmsg] at hm
      · simp [hmsg] at hm
    · simp at hm

/-- C8 witness: a vision-incapable model entry with an image present uses
the text endpoint and a text-only current turn. -/
theorem claim_C8_vision_endpoint_witness :
    endpointFor "google/gemini-2.5-pro"
        (hasVision ⟨some "google/gemini-2.5-pro", false, none⟩ (some [255])) =
      endpointFor "google/gemini-2.5-pro" false ∧
    (currentMessage "hi" (some [255])
        (hasVision ⟨some "google/gemini-2.5-pro", false, none⟩ (some [255]))).parts =
      (if "hi" = "" then [] else [GPart.text "hi"]) :=
  ⟨(claim_C8_vision_endpoint ⟨some "google/gemini-2.5-pro", false, none⟩
      "google/gemini-2.5-pro" "hi" [255] (fun _ => none) [] (by decide) rfl).2.2.1,
   (claim_C8_vision_endpoint ⟨some "google/gemini-2.5-pro", false, none⟩
      "google/gemini-2.5-pro" "hi" [255] (fun _ => none) [] (by decide) rfl).2.2.2.2.1⟩

/-- C9: with a non-empty message, a truthy image and the vision flag set,
the current turn is the user's message text followed by the inline base64
attachment tagged "image/jpeg". -/
theorem claim_C9_vision_turn (message : String) (cfg : ModelCfg) (bs : List Nat)
    (hm : message ≠ "") (hv : cfg.vision = true) (hb : bs ≠ []) :
    currentMessage message (some bs) (hasVision cfg (some bs)) =
      ⟨"user", [GPart.text message,
        GPart.inlineData "image/jpeg" (base64Encode bs)]⟩ := by
  have hi : bs.isEmpty = false := by
    cases bs with
    | nil => exact absurd rfl hb
    | cons a l => rfl
  simp [currentMessage, hasVision, hv, imageTruthy, hi, hm]

/-- C9 witness: the current turn for message "hi" and the JPEG magic
bytes, whose base64 encoding is "/9j/". -/
theorem claim_C9_vision_turn_witness :
    currentMessage "hi" (some [255, 216, 255])
        (hasVision ⟨some "google/gemini-2.5-pro", true, none⟩ (some [255, 216, 255])) =
      ⟨"user", [GPart.text "hi",
        GPart.inlineData "image/jpeg" (base64Encode [255, 216, 255])]⟩ ∧
    base64Encode [255, 216, 255] = "/9j/" :=
  ⟨claim_C9_vision_turn "hi" ⟨some "google/gemini-2.5-pro", true, none⟩
      [255, 216, 255] (by decide) rfl (by decide), rfl⟩

/-! ## Helper lemmas for the streaming decode -/

/-- A list is a prefix of itself extended by anything. -/
theorem isPrefixOf_append_self (n b : List Char) : n.isPrefixOf (n ++ b) = true := by
  induction n with
  | nil => simp [List.isPrefixOf]
  | cons c n' ih => simp [List.isPrefixOf, ih]

/-- A prefix is a substring. -/
theorem containsSub_of_isPrefixOf {n l : List Char} (h : n.isPrefixOf l = true) :
    containsSub n l = true := by
  cases l with
  | nil => simpa [containsSub] using h
  | cons c rest => simp [containsSub, h]

/-- Substring membership survives prepending. -/
theorem containsSub_append_left (n a l : List Char) (h : containsSub n l = true) :
    containsSub n (a ++ l) = true := by
  induction a with
  | nil => simpa using h
  | cons c a' ih => simp [containsSub, ih]

/-- A list embedded between two others is a substring. -/
theorem containsSub_sandwich (n a b : List Char) :
    containsSub n (a ++ (n ++ b)) = true :=
  containsSub_append_left n a _ (containsSub_of_isPrefixOf (isPrefixOf_append_self n b))

/-- Draining a concatenation drains the first part, then the second from
the leftover buffer. -/
theorem drainLines_append (parse : List Char → Option Json) (a : List Char) :
    ∀ cur c : List Char,
      drainLines parse cur (a ++ c) =
        ((drainLines parse cur a).1 ++
          (drainLines parse (drainLines parse cur a).2 c).1,
         (drainLines parse (drainLines parse cur a).2 c).2) := by
  induction a with
  | nil =>
    intro cur c
    simp [drainLines]
  | cons c0 a' ih =>
    intro cur c
    by_cases h : c0 = '\n'
    · subst h
      simp [drainLines, ih, List.append_assoc]
    · simp [drainLines, h, ih]

/-- Scanning over a newline-free prefix just moves it into `cur`. -/
theorem drainLines_scan (parse : List Char → Option Json) (pre : List Char)
    (hpre : '\n' ∉ pre) : ∀ cur rest : List Char,
      drainLines parse cur (pre ++ rest) = drainLines parse (cur ++ pre) rest := by
  induction pre with
  | nil => intro cur rest; simp
  | cons c0 pre' ih =>
    intro cur rest
    have hc : ¬(c0 = '\n') := fun hh => hpre (hh ▸ List.mem_cons_self _ _)
    have h' : '\n' ∉ pre' := fun hm => hpre (List.mem_cons_of_mem _ hm)
    simp [drainLines, hc, ih h', List.append_assoc]

/-- The leftover buffer after draining never contains a newline. -/
theorem drainLines_no_newline (parse : List Char → Option Json) (l : List Char) :
    ∀ cur : List Char, '\n' ∉ cur → '\n' ∉ (drainLines parse cur l).2 := by
  induction l with
  | nil => intro cur h; simpa [drainLines] using h
  | cons c0 rest ih =>
    intro cur h
    by_cases hc : c0 = '\n'
    · subst hc
      simp only [drainLines, if_pos rfl]
      exact ih [] (by simp)
    · simp only [drainLines, if_neg hc]
      refine ih (cur ++ [c0]) ?_
      intro hm
      rcases List.mem_append.mp hm with hm | hm
      · exact h hm
      · simp at hm
        exact hc hm.symm

/-- Feeding two chunks equals feeding their concatenation, provided the
starting buffer is newline-free (which every reachable buffer is). -/
theorem feedChunk_comp (parse : List Char → Option Json) (outs : List String)
    (buf : List Char) (hbuf : '\n' ∉ buf) (s1 s2 : List Char) :
    feedChunk parse (feedChunk parse (outs, buf) s1) s2 =
      feedChunk parse (outs, buf) (s1 ++ s2) := by
  have hr1 : '\n' ∉ (drainLines parse [] (buf ++ s1)).2 :=
    drainLines_no_newline parse _ [] (by simp)
  have h1 : buf ++ (s1 ++ s2) = (buf ++ s1) ++ s2 := (List.append_assoc _ _ _).symm
  have h2 := drainLines_scan parse _ hr1 [] s2
  simp only [List.nil_append] at h2
  simp only [feedChunk, h1, h2, drainLines_append parse (buf ++ s1) [] s2]
  simp [List.append_assoc]

/-- Decoding the concatenation of two byte sequences, the first of which
decodes successfully from the given state, decodes the second from the
initial state and prepends. -/
theorem utf8DecodeAux_append : ∀ (c1 : List Nat) (need acc : Nat),
    (need = 0 → acc = 0) → ∀ s1 : List Char, utf8DecodeAux c1 need acc = some s1 →
    ∀ c2, utf8DecodeAux (c1 ++ c2) need acc =
      (utf8DecodeAux c2 0 0).map (fun t => s1 ++ t) := by
  intro c1
  induction c1 with
  | nil =>
    intro need acc hc s1 h c2
    simp only [utf8DecodeAux] at h
    by_cases hn : need = 0
    · rw [if_pos hn] at h
      cases h
      subst hn
      rw [hc rfl]
      simp
    · rw [if_neg hn] at h
      cases h
  | cons b bs ih =>
    intro need acc hc s1 h c2
    match need with
    | 0 =>
      simp only [List.cons_append, utf8DecodeAux, List.append_eq] at h ⊢
      by_cases h1 : b < 128
      · rw [if_pos h1] at h ⊢
        obtain ⟨cs, hcs, rfl⟩ := Option.map_eq_some'.mp h
        rw [ih 0 0 (fun _ => rfl) cs hcs c2]
        cases utf8DecodeAux c2 0 0 <;> simp
      · rw [if_neg h1] at h ⊢
        by_cases h2 : b < 194
        · rw [if_pos h2] at h
          cases h
        · rw [if_neg h2] at h ⊢
          by_cases h3 : b < 224
          · rw [if_pos h3] at h ⊢
            exact ih 1 (b - 192) (by omega) s1 h c2
          · rw [if_neg h3] at h ⊢
            by_cases h4 : b < 240
            · rw [if_pos h4] at h ⊢
              exact ih 2 (b - 224) (by omega) s1 h c2
            · rw [if_neg h4] at h ⊢
              by_cases h5 : b < 245
              · rw [if_pos h5] at h ⊢
                exact ih 3 (b - 240) (by omega) s1 h c2
              · rw [if_neg h5] at h
                cases h
    | 1 =>
      simp only [List.cons_append, utf8DecodeAux, List.append_eq] at h ⊢
      by_cases hcont : 128 ≤ b ∧ b < 192
      · rw [if_pos hcont] at h ⊢
        obtain ⟨cs, hcs, rfl⟩ := Option.map_eq_some'.mp h
        rw [ih 0 0 (fun _ => rfl) cs hcs c2]
        cases utf8DecodeAux c2 0 0 <;> simp
      · rw [if_neg hcont] at h
        cases h
    | n + 2 =>
      simp only [List.cons_append, utf8DecodeAux, List.append_eq] at h ⊢
      by_cases hcont : 128 ≤ b ∧ b < 192
      · rw [if_pos hcont] at h ⊢
        exact ih (n + 1) (acc * 64 + (b - 128)) (by omega) s1 h c2
      · rw [if_neg hcont] at h
        cases h

/-- Decoding the concatenation of two valid UTF-8 byte sequences yields
the concatenation of their decodings. -/
theorem utf8Decode_append (c1 c2 : List Nat) (s1 : List Char)
    (h : utf8Decode c1 = some s1) :
    utf8Decode (c1 ++ c2) = (utf8Decode c2).map (fun t => s1 ++ t) :=
  utf8DecodeAux_append c1 0 0 (fun _ => rfl) s1 h c2

/-! ## Claim theorems: Gemini transport failures and streaming decode -/

/-- C5: with a resolvable model name, every transport or protocol failure
(network error, timeout, unexpected exception, non-200 status) produces a
sequence of exactly one human-readable fragment, one fixed message per
category, and the sequence then terminates. -/
theorem claim_C5_failure_single_fragment (gsp : SystemPromptSource)
    (message : String) (cfg : ModelCfg) (history : List HistMsg)
    (image : Option (List Nat)) (nm : String) (outcome : HttpOutcome)
    (hname : cfg.name = some nm)
    (hfail : outcome = .networkError ∨ outcome = .timeout ∨
      outcome = .unexpectedFault ∨
      ∃ status body, outcome = .response status body ∧ status ≠ 200) :
    (∃ m, chat_completion_stream gsp message cfg history image outcome = [m]) ∧
    chat_completion_stream gsp message cfg history image .networkError =
      [msgNetwork] ∧
    chat_completion_stream gsp message cfg history image .timeout =
      [msgTimeout] ∧
    chat_completion_stream gsp message cfg history image .unexpectedFault =
      [unexpectedErrorMsg] ∧
    (∀ status body, status ≠ 200 →
      chat_completion_stream gsp message cfg history image
        (.response status body) = [errorMessageFor status]) := by
  have h1 : chat_completion_stream gsp message cfg history image .networkError =
      [msgNetwork] := by simp [chat_completion_stream, hname]
  have h2 : chat_completion_stream gsp message cfg history image .timeout =
      [msgTimeout] := by simp [chat_completion_stream, hname]
  have h3 : chat_completion_stream gsp message cfg history image .unexpectedFault =
      [unexpectedErrorMsg] := by simp [chat_completion_stream, hname]
  have h4 : ∀ status body, status ≠ 200 →
      chat_completion_stream gsp message cfg history image
        (.response status body) = [errorMessageFor status] := by
    intro st b hst
    simp [chat_completion_stream, hname, hst]
  refine ⟨?_, h1, h2, h3, h4⟩
  rcases hfail with rfl | rfl | rfl | ⟨st, b, rfl, hst⟩
  · exact ⟨_, h1⟩
  · exact ⟨_, h2⟩
  · exact ⟨_, h3⟩
  · exact ⟨_, h4 st b hst⟩

/-- C5 witness at a concrete request and a network failure. -/
theorem claim_C5_failure_single_fragment_witness :
    (∃ m, chat_completion_stream (fun _ => none) "hi"
      ⟨some "google/gemini-2.5-pro", false, none⟩ [] none .networkError = [m]) ∧
    chat_completion_stream (fun _ => none) "hi"
      ⟨some "google/gemini-2.5-pro", false, none⟩ [] none .networkError =
      [msgNetwork] :=
  ⟨(claim_C5_failure_single_fragment (fun _ => none) "hi"
      ⟨some "google/gemini-2.5-pro", false, none⟩ [] none
      "google/gemini-2.5-pro" .networkError rfl (Or.inl rfl)).1,
   (claim_C5_failure_single_fragment (fun _ => none) "hi"
      ⟨some "google/gemini-2.5-pro", false, none⟩ [] none
      "google/gemini-2.5-pro" .networkError rfl (Or.inl rfl)).2.1⟩

/-- C6: non-200 statuses map to the fixed message vocabulary: 400 to the
disallowed-content message, 403 to the credential message, 429 to the
rate-limit message, and any other non-200 status to a generic
communication-error message containing the numeric status code; in each
case the fragment is the entire sequence. -/
theorem claim_C6_status_vocabulary (gsp : SystemPromptSource)
    (message : String) (cfg : ModelCfg) (history : List HistMsg)
    (image : Option (List Nat)) (nm : String) (body : List (List Nat))
    (status : Nat) (hname : cfg.name = some nm) :
    chat_completion_stream gsp message cfg history image (.response 400 body) =
      [msg400] ∧
    chat_completion_stream gsp message cfg history image (.response 403 body) =
      [msg403] ∧
    chat_completion_stream gsp message cfg history image (.response 429 body) =
      [msg429] ∧
    (status ≠ 200 → status ≠ 400 → status ≠ 403 → status ≠ 429 →
      chat_completion_stream gsp message cfg history image
          (.response status body) = [msgOther status] ∧
      containsSub (toString status).data (msgOther status).data = true) := by
  refine ⟨?_, ?_, ?_, ?_⟩
  · simp [chat_completion_stream, hname, errorMessageFor]
  · simp [chat_completion_stream, hname, errorMessageFor]
  · simp [chat_completion_stream, hname, errorMessageFor]
  · intro h200 h400 h403 h429
    constructor
    · simp [chat_completion_stream, hname, errorMessageFor, h200, h400, h403, h429]
    · have hs := containsSub_sandwich (toString status).data
        ("Error communicating with Gemini API (HTTP " : String).data
        ((")." : String).data)
      simpa [msgOther, String.data_append, List.append_assoc] using hs

/-- C6 witness: a simulated 429 yields exactly the rate-limit fragment,
and a simulated 500 yields the generic message carrying "500". -/
theorem claim_C6_status_vocabulary_witness :
    chat_completion_stream (fun _ => none) "hi"
      ⟨some "google/gemini-2.5-pro", false, none⟩ [] none (.response 429 []) =
      [msg429] ∧
    chat_completion_stream (fun _ => none) "hi"
      ⟨some "google/gemini-2.5-pro", false, none⟩ [] none (.response 500 []) =
      [msgOther 500] ∧
    containsSub (toString 500).data (msgOther 500).data = true :=
  ⟨(claim_C6_status_vocabulary (fun _ => none) "hi"
      ⟨some "google/gemini-2.5-pro", false, none⟩ [] none
      "google/gemini-2.5-pro" [] 500 rfl).2.2.1,
   ((claim_C6_status_vocabulary (fun _ => none) "hi"
      ⟨some "google/gemini-2.5-pro", false, none⟩ [] none
      "google/gemini-2.5-pro" [] 500 rfl).2.2.2
      (by decide) (by decide) (by decide) (by decide)).1,
   ((claim_C6_status_vocabulary (fun _ => none) "hi"
      ⟨some "google/gemini-2.5-pro", false, none⟩ [] none
      "google/gemini-2.5-pro" [] 500 rfl).2.2.2
      (by decide) (by decide) (by decide) (by decide)).2⟩

/-- Unfolding of the decode loop at the end of the stream. -/
theorem decodeBodyBytes_nil (parse : List Char → Option Json)
    (st : List String × List Char) :
    decodeBodyBytes parse st [] = st.1 ++ processLine parse st.2 := by
  cases st
  rfl

/-- Unfolding of the decode loop on a chunk that decodes. -/
theorem decodeBodyBytes_cons_ok (parse : List Char → Option Json)
    (st : List String × List Char) (ch : List Nat) (rest : List (List Nat))
    (cs : List Char) (h : utf8Decode ch = some cs) :
    decodeBodyBytes parse st (ch :: rest) =
      decodeBodyBytes parse (feedChunk parse st cs) rest := by
  cases st with
  | mk outs buf => simp only [decodeBodyBytes, h]

/-- C1 counterexample: the split-invariance fails at the byte level: the
same response body decodes to the fragment "é" when delivered whole, but
to the single unexpected-error fragment when split between the two bytes
of the "é" character, because each delivered chunk is UTF-8 decoded on
its own (line 169) and the resulting `UnicodeDecodeError` is absorbed by
the generic handler. -/
theorem claim_C1_counterexample :
    decodeBodyBytes jsonParse ([], []) [c1Body.take c1Split, c1Body.drop c1Split] =
      [unexpectedErrorMsg] ∧
    decodeBodyBytes jsonParse ([], []) [c1Body] = ["é"] ∧
    c1Body.take c1Split ++ c1Body.drop c1Split = c1Body ∧
    decodeBodyBytes jsonParse ([], []) [c1Body.take c1Split, c1Body.drop c1Split] ≠
      decodeBodyBytes jsonParse ([], []) [c1Body] := by
  have e1 : decodeBodyBytes jsonParse ([], [])
      [c1Body.take c1Split, c1Body.drop c1Split] = [unexpectedErrorMsg] := by rfl
  have e2 : decodeBodyBytes jsonParse ([], []) [c1Body] = ["é"] := by rfl
  refine ⟨e1, e2, List.take_append_drop _ _, ?_⟩
  rw [e1, e2]
  decide

/-- C1 (amended): the decoded fragments are invariant under splitting the
response body into two chunks whenever each chunk is itself valid UTF-8
(in particular under every split of an all-ASCII body, and every split at
a character boundary): the bytes are accumulated in a buffer, complete
newline-terminated lines are parsed, and the remainder gets one final
parse attempt. -/
theorem claim_C1_split_invariance_amended (c1 c2 : List Nat) (s1 s2 : List Char)
    (h1 : utf8Decode c1 = some s1) (h2 : utf8Decode c2 = some s2) :
    decodeBodyBytes jsonParse ([], []) [c1, c2] =
      decodeBodyBytes jsonParse ([], []) [c1 ++ c2] := by
  have h12 : utf8Decode (c1 ++ c2) = some (s1 ++ s2) := by
    rw [utf8Decode_append c1 c2 s1 h1, h2]
    rfl
  rw [decodeBodyBytes_cons_ok jsonParse _ _ _ _ h1,
    decodeBodyBytes_cons_ok jsonParse _ _ _ _ h2,
    decodeBodyBytes_cons_ok jsonParse _ _ _ _ h12,
    feedChunk_comp jsonParse [] [] (by simp) s1 s2]

/-- C1 amended witness: one ASCII JSON object split across two delivered
chunks decodes to the same single fragment "hi" as the unsplit body. -/
theorem claim_C1_split_invariance_amended_witness :
    decodeBodyBytes jsonParse ([], [])
        [utf8Encode (c1AsciiLine.data.take 20), utf8Encode (c1AsciiLine.data.drop 20)] =
      decodeBodyBytes jsonParse ([], [])
        [utf8Encode (c1AsciiLine.data.take 20) ++ utf8Encode (c1AsciiLine.data.drop 20)] ∧
    decodeBodyBytes jsonParse ([], [])
        [utf8Encode (c1AsciiLine.data.take 20), utf8Encode (c1AsciiLine.data.drop 20)] =
      ["hi"] :=
  ⟨claim_C1_split_invariance_amended
      (utf8Encode (c1AsciiLine.data.take 20)) (utf8Encode (c1AsciiLine.data.drop 20))
      (c1AsciiLine.data.take 20) (c1AsciiLine.data.drop 20) (by rfl) (by rfl),
   by rfl⟩

end AiBot
